import Mathlib

/-!
# Verification of the macropadd core

A shallow embedding of the core of the `macropadd` program (a macro-keypad
driver): the action model (`action.py`), layers (`layer.py`), the router state
machine (`main.py`) and the device bridge's outbound message encoding
(`hal.py`).  Python dictionaries are modelled as insertion-ordered association
lists, Python exceptions as `Except`, and dynamically typed YAML-derived data
as the inductive type `Value`.
-/

namespace MPad

/-- A dynamically typed value, as produced by the YAML loader and passed
around untyped in the Python source (`dict` / `list` / `str` / `int` /
`bool` / `None`). -/
inductive Value where
  | str (s : String)
  | int (n : Int)
  | bool (b : Bool)
  | null
  | dict (entries : List (String × Value))
  | list (items : List Value)
deriving Repr

mutual

/-- Structural equality test on `Value` (the `DecidableEq` instance below is
built from it; automatic deriving does not support nested inductives). -/
def Value.beq : Value → Value → Bool
  | .str a, .str b => a == b
  | .int a, .int b => a == b
  | .bool a, .bool b => a == b
  | .null, .null => true
  | .dict a, .dict b => beqFields a b
  | .list a, .list b => beqVals a b
  | _, _ => false

def beqFields : List (String × Value) → List (String × Value) → Bool
  | [], [] => true
  | (k, v) :: r, (k', v') :: r' => k == k' && Value.beq v v' && beqFields r r'
  | _, _ => false

def beqVals : List Value → List Value → Bool
  | [], [] => true
  | v :: r, v' :: r' => Value.beq v v' && beqVals r r'
  | _, _ => false

end

mutual

/-- An auxiliary size measure on `Value`, used to justify inductions that the
nested recursion of `Value` obstructs (the successor is on the right so that
`vsize (.dict es)` reduces to a `Nat` successor, letting fueled definitions
below unfold definitionally). -/
def vsize : Value → Nat
  | .dict es => fsize es + 1
  | .list xs => lsize xs + 1
  | _ => 1

def fsize : List (String × Value) → Nat
  | [] => 1
  | (_, v) :: r => vsize v + fsize r + 1

def lsize : List Value → Nat
  | [] => 1
  | v :: r => vsize v + lsize r + 1

end

theorem value_beq_correct : ∀ n : Nat,
    (∀ a b : Value, vsize a ≤ n → (Value.beq a b = true ↔ a = b)) ∧
    (∀ es es' : List (String × Value), fsize es ≤ n →
      (beqFields es es' = true ↔ es = es')) ∧
    (∀ xs xs' : List Value, lsize xs ≤ n → (beqVals xs xs' = true ↔ xs = xs')) := by
  intro n
  induction n using Nat.strong_induction_on with
  | _ n ih =>
  refine ⟨?_, ?_, ?_⟩
  · intro a b h
    cases a <;> cases b <;> simp_all [Value.beq, vsize]
    case dict.dict es es' =>
      exact (ih (n - 1) (by omega)).2.1 es es' (by omega)
    case list.list xs xs' =>
      exact (ih (n - 1) (by omega)).2.2 xs xs' (by omega)
  · intro es es' h
    match es, es' with
    | [], [] => simp [beqFields]
    | [], _ :: _ => simp [beqFields]
    | _ :: _, [] => simp [beqFields]
    | (k, v) :: r, (k', v') :: r' =>
      simp only [fsize] at h
      have hv := (ih (n - 1) (by omega)).1 v v' (by omega)
      have hr := (ih (n - 1) (by omega)).2.1 r r' (by omega)
      simp only [beqFields, Bool.and_eq_true, beq_iff_eq, hv, hr]
      constructor
      · rintro ⟨⟨h1, h2⟩, h3⟩; simp [h1, h2, h3]
      · intro h1
        injection h1 with h2 h3
        injection h2 with h4 h5
        exact ⟨⟨h4, h5⟩, h3⟩
  · intro xs xs' h
    match xs, xs' with
    | [], [] => simp [beqVals]
    | [], _ :: _ => simp [beqVals]
    | _ :: _, [] => simp [beqVals]
    | v :: r, v' :: r' =>
      simp only [lsize] at h
      have hv := (ih (n - 1) (by omega)).1 v v' (by omega)
      have hr := (ih (n - 1) (by omega)).2.2 r r' (by omega)
      simp only [beqVals, Bool.and_eq_true, hv, hr]
      constructor
      · rintro ⟨h1, h2⟩; simp [h1, h2]
      · intro h1
        injection h1 with h2 h3
        exact ⟨h2, h3⟩

instance : DecidableEq Value := fun a b =>
  decidable_of_iff (Value.beq a b = true)
    ((value_beq_correct (vsize a)).1 a b le_rfl)

/-- First binding for a key in an insertion-ordered association list
(Python `dict` lookup; keys are unique in dictionaries built by the
YAML loader). -/
def alookup {α : Type} (es : List (String × α)) (k : String) : Option α :=
  match es with
  | [] => none
  | (k', v) :: rest => if k' = k then some v else alookup rest k

/-- Python `k in d` for a dictionary. -/
def hasKey {α : Type} (es : List (String × α)) (k : String) : Bool :=
  (alookup es k).isSome

/-- Python `d[k]` on an arbitrary value: `KeyError` when the key is absent,
`TypeError` when the value is not a dictionary (as in `data['repeat']['action']`
in `action.py`). -/
def Value.item : Value → String → Except String Value
  | .dict es, k =>
    match alookup es k with
    | some v => .ok v
    | none => .error "KeyError"
  | _, _ => .error "TypeError: not subscriptable"

/-- Python `d.get(k, dflt)`: `AttributeError` when the receiver is not a
dictionary. -/
def Value.dGet : Value → String → Value → Except String Value
  | .dict es, k, dflt => .ok ((alookup es k).getD dflt)
  | _, _, _ => .error "AttributeError: get"

/-- Decimal value of a digit list. -/
def digitsToNat (ds : List Char) : Nat :=
  ds.foldl (fun acc c => acc * 10 + (c.toNat - 48)) 0

/-- `int(...)` applied to a string: optional surrounding spaces, an optional
sign, then decimal digits; anything else raises `ValueError`. -/
def pyStrToInt (cs : List Char) : Except String Int :=
  let t := ((cs.dropWhile (fun c => c = ' ')).reverse.dropWhile
    (fun c => c = ' ')).reverse
  let digits : List Char → Option Int := fun ds =>
    if !ds.isEmpty && ds.all (fun c => c.isDigit) then some (digitsToNat ds : Int)
    else none
  let core :=
    match t with
    | '-' :: ds => (digits ds).map (fun n => -n)
    | '+' :: ds => digits ds
    | ds => digits ds
  match core with
  | some n => .ok n
  | none => .error "ValueError: invalid literal for int"

/-- Python `int(x)`: identity on ints, `True`/`False` become 1/0, numeric
strings are converted, everything else raises (`ValueError`/`TypeError`).
Used for the `count`/`delayMs` fields in `action.py`. -/
def pyInt : Value → Except String Int
  | .int n => .ok n
  | .bool b => .ok (if b then 1 else 0)
  | .str s => pyStrToInt s.data
  | _ => .error "TypeError: int"

/-- Python iteration `for x in v`: lists yield their items, strings their
characters (as one-character strings), dictionaries their keys; other values
raise `TypeError`.  Used for `data['sequence']['steps']` in `action.py`. -/
def pyIter : Value → Except String (List Value)
  | .list xs => .ok xs
  | .str s => .ok (s.data.map (fun c => Value.str (String.mk [c])))
  | .dict es => .ok (es.map (fun e => Value.str e.1))
  | _ => .error "TypeError: not iterable"

/-- The action tree of `action.py` (`HotkeyAction`, `TypeAction`,
`ActivateWindowAction`, `RepeatAction`, `SequentialAction`).  Payload fields
hold the raw values the Python constructors store; `count` and `delayMs` have
gone through `int(...)` at parse time and so are integers. -/
inductive PAction where
  | hotkey (hk : Value) (name : Value)
  | typeText (txt : Value) (name : Value)
  | activateWindow (path : Value) (name : Value)
  | rep (inner : PAction) (name : Value) (count : Int) (delayMs : Int)
  | seqn (actions : List PAction) (name : Value) (delayMs : Int)
deriving Repr

mutual

/-- Structural equality test on `PAction` (manual, as for `Value`). -/
def PAction.beq : PAction → PAction → Bool
  | .hotkey a n, .hotkey a' n' => a == a' && n == n'
  | .typeText a n, .typeText a' n' => a == a' && n == n'
  | .activateWindow a n, .activateWindow a' n' => a == a' && n == n'
  | .rep i n c d, .rep i' n' c' d' =>
    PAction.beq i i' && n == n' && c == c' && d == d'
  | .seqn xs n d, .seqn xs' n' d' => beqActs xs xs' && n == n' && d == d'
  | _, _ => false

def beqActs : List PAction → List PAction → Bool
  | [], [] => true
  | a :: r, a' :: r' => PAction.beq a a' && beqActs r r'
  | _, _ => false

end

mutual

/-- Size measure on `PAction`, analogous to `vsize`. -/
def asize : PAction → Nat
  | .rep i _ _ _ => 1 + asize i
  | .seqn xs _ _ => 1 + alsize xs
  | _ => 1

def alsize : List PAction → Nat
  | [] => 1
  | a :: r => 1 + asize a + alsize r

end

theorem paction_beq_correct : ∀ n : Nat,
    (∀ a b : PAction, asize a ≤ n → (PAction.beq a b = true ↔ a = b)) ∧
    (∀ xs xs' : List PAction, alsize xs ≤ n → (beqActs xs xs' = true ↔ xs = xs')) := by
  intro n
  induction n using Nat.strong_induction_on with
  | _ n ih =>
  constructor
  · intro a b h
    cases a <;> cases b <;> simp_all [PAction.beq, asize]
    case rep.rep i nm c d i' nm' c' d' =>
      have hi := (ih (n - 1) (by omega)).1 i i' (by omega)
      simp only [hi]
      constructor
      · rintro ⟨⟨⟨h1, h2⟩, h3⟩, h4⟩; exact ⟨h1, h2, h3, h4⟩
      · rintro ⟨h1, h2, h3, h4⟩; exact ⟨⟨⟨h1, h2⟩, h3⟩, h4⟩
    case seqn.seqn xs nm d xs' nm' d' =>
      have hx := (ih (n - 1) (by omega)).2 xs xs' (by omega)
      simp only [hx]
      constructor
      · rintro ⟨⟨h1, h2⟩, h3⟩; exact ⟨h1, h2, h3⟩
      · rintro ⟨h1, h2, h3⟩; exact ⟨⟨h1, h2⟩, h3⟩
  · intro xs xs' h
    match xs, xs' with
    | [], [] => simp [beqActs]
    | [], _ :: _ => simp [beqActs]
    | _ :: _, [] => simp [beqActs]
    | a :: r, a' :: r' =>
      simp only [alsize] at h
      have ha := (ih (n - 1) (by omega)).1 a a' (by omega)
      have hr := (ih (n - 1) (by omega)).2 r r' (by omega)
      simp only [beqActs, Bool.and_eq_true, ha, hr]
      constructor
      · rintro ⟨h1, h2⟩; simp [h1, h2]
      · intro h1
        injection h1 with h2 h3
        exact ⟨h2, h3⟩

instance : DecidableEq PAction := fun a b =>
  decidable_of_iff (PAction.beq a b = true)
    ((paction_beq_correct (asize a)).1 a b le_rfl)

/-- `BaseAction.name` (set by `BaseAction.__init__`). -/
def PAction.name : PAction → Value
  | .hotkey _ n => n
  | .typeText _ n => n
  | .activateWindow _ n => n
  | .rep _ n _ _ => n
  | .seqn _ n _ => n

/-- `data.get('name', '')`, used by every `parse` method of `action.py`. -/
def getName (es : List (String × Value)) : Value :=
  (alookup es "name").getD (.str "")

/-- `HotkeyAction.parse`: recognizes a `hotkey` field; never raises. -/
def hotkeyParse (es : List (String × Value)) : Option PAction :=
  match alookup es "hotkey" with
  | some hv => some (.hotkey hv (getName es))
  | none => none

/-- `TypeAction.parse`: recognizes a `type` field; never raises. -/
def typeParse (es : List (String × Value)) : Option PAction :=
  match alookup es "type" with
  | some tv => some (.typeText tv (getName es))
  | none => none

/-- `ActivateWindowAction.parse`: recognizes an `activateWindow` field;
never raises. -/
def activateParse (es : List (String × Value)) : Option PAction :=
  match alookup es "activateWindow" with
  | some av => some (.activateWindow av (getName es))
  | none => none

/-- The step loop of `SequentialAction.parse`, parameterized by the parsing
function applied to each step: parse each step, raising `ValueError` when a
step parses to `None`. -/
def parseStepsWith (p : Value → Except String (Option PAction)) :
    List Value → Except String (List PAction)
  | [] => .ok []
  | v :: rest =>
    match p v with
    | .error e => .error e
    | .ok none => .error "ValueError: Could not parse step action"
    | .ok (some a) =>
      match parseStepsWith p rest with
      | .error e => .error e
      | .ok acts => .ok (a :: acts)

/-- Fueled model of `parse_action` from `action.py`.  `.ok none` models the
Python `return None` (non-dict spec), `.error` models a raised exception.
The variant parsers are tried in the source's fixed order
`HotkeyAction or TypeAction or ActivateWindowAction or SequentialAction or
RepeatAction`, short-circuiting at the first that does not return `None`.
Every recursive call descends at least two `vsize` levels into the spec while
consuming one unit of fuel, so fuel `vsize spec` (used by `parse_action`
below) never runs out on the actual recursion. -/
def parseA : Nat → Value → Except String (Option PAction)
  | 0, _ => .error "RecursionError"
  | n + 1, spec =>
    match spec with
    | .dict es =>
      match hotkeyParse es with
      | some a => .ok (some a)
      | none =>
      match typeParse es with
      | some a => .ok (some a)
      | none =>
      match activateParse es with
      | some a => .ok (some a)
      | none =>
      match alookup es "sequence" with
      | some sv =>
        match Value.item sv "steps" with
        | .error e => .error e
        | .ok stepsVal =>
        match pyIter stepsVal with
        | .error e => .error e
        | .ok steps =>
        match parseStepsWith (parseA n) steps with
        | .error e => .error e
        | .ok acts =>
        match Value.dGet sv "delayMs" (.int 20) with
        | .error e => .error e
        | .ok dv =>
        match pyInt dv with
        | .error e => .error e
        | .ok d => .ok (some (.seqn acts (getName es) d))
      | none =>
      match alookup es "repeat" with
      | some rv =>
        match Value.item rv "action" with
        | .error e => .error e
        | .ok av =>
        match parseA n av with
        | .error e => .error e
        | .ok none => .error "ValueError: Could not parse repeat action"
        | .ok (some inner) =>
        match Value.dGet rv "count" (.int 0) with
        | .error e => .error e
        | .ok cv =>
        match pyInt cv with
        | .error e => .error e
        | .ok c =>
        match Value.dGet rv "delayMs" (.int 20) with
        | .error e => .error e
        | .ok dv =>
        match pyInt dv with
        | .error e => .error e
        | .ok d => .ok (some (.rep inner (getName es) c d))
      | none => .error "ValueError: Invalid action"
    | _ => .ok none

/-- `parse_action` from `action.py` (fuel instantiated; see `parseA`). -/
def parse_action (spec : Value) : Except String (Option PAction) :=
  parseA (vsize spec) spec

/-! ## Layers (`layer.py`) -/

/-- A `Layer` object (`layer.py`).  `name` and `application` hold the raw
values taken from the spec record; `key_actions` is the insertion-ordered
dictionary of per-key bindings; the three encoder bindings are `None` after
`Layer.__init__` and are never assigned by `from_spec_dict`. -/
structure Layer where
  name : Value
  application : Option Value := none
  key_actions : List (String × PAction) := []
  encoder_inc_action : Option PAction := none
  encoder_dec_action : Option PAction := none
  encoder_btn_action : Option PAction := none
deriving DecidableEq, Repr

/-- Modelled from the spec: the module `keys.py` defining `VALID_KEY_NAMES`
is not among the provided sources.  The spec fixes "a fixed enumerable set of
physical key identifiers" with 12 per-key label fields (§3) and a reserved
global-hotkey block F13–F24 that is delivered back as key events (§6), so the
valid key names are F13 through F24. -/
def VALID_KEY_NAMES : List String :=
  (List.range' 13 12).map (fun i => "F" ++ toString i)

/-- `create_default_layer` from `layer.py`: the synthetic default layer binds
every key F13..F24 to itself as a hotkey. -/
def create_default_layer : Layer :=
  { name := .str "default"
    key_actions :=
      (List.range' 13 12).map (fun i =>
        ("F" ++ toString i, .hotkey (.str ("F" ++ toString i)) (.str ("F" ++ toString i)))) }

/-- The key-binding loop of `Layer.from_spec_dict`: iterate the spec record in
insertion order, skip keys that are not valid key names, parse the rest with
`parse_action`; a `None` result is logged and skipped, a raised exception
propagates. -/
def buildKeyActions : List (String × Value) → Except String (List (String × PAction))
  | [] => .ok []
  | (k, v) :: rest =>
    if k ∈ VALID_KEY_NAMES then
      match parse_action v with
      | .error e => .error e
      | .ok none => buildKeyActions rest
      | .ok (some a) => do
        let kas ← buildKeyActions rest
        pure ((k, a) :: kas)
    else buildKeyActions rest

/-- `Layer.from_spec_dict` from `layer.py` (the argument is the layer record,
a dictionary).  `spec["name"]` raises `KeyError` when absent; the
`application` field is optional; each valid-key field is parsed as an action. -/
def from_spec_dict (spec : List (String × Value)) : Except String Layer :=
  match alookup spec "name" with
  | none => .error "KeyError: name"
  | some nm => do
    let kas ← buildKeyActions spec
    pure { name := nm, application := alookup spec "application", key_actions := kas }

/-- `Layer.get_key_names`: one entry per valid key name, in order — the bound
action's `name` when the key is bound, Python `None` (`Value.null`) otherwise.
(An action name that is itself `None` and an unbound key are indistinguishable
in Python; both are `Value.null` here.) -/
def Layer.get_key_names (l : Layer) : List Value :=
  VALID_KEY_NAMES.map (fun k =>
    match alookup l.key_actions k with
    | some a => a.name
    | none => Value.null)

/-- `Layer.run_action_for_key`: returns the action that was run (`none`
models the `return False` path where no binding exists). -/
def Layer.run_action_for_key (l : Layer) (key : String) : Option PAction :=
  alookup l.key_actions key

/-! ## Device bridge encoding and outbound queue (`hal.py`) -/

/-- Python `s.encode('ascii', errors='ignore')` on a list of characters
(Python strings are sequences of code points): non-ASCII characters are
silently dropped. -/
def encodeAsciiIgnore (cs : List Char) : List Nat :=
  (cs.filter (fun c => c.toNat < 128)).map Char.toNat

/-- The record built by `WindowsHal.send_profile_name`: type byte 3, the name
sliced to its first 18 characters (`name[:18]`) and ASCII-encoded, zero-padded
to 19 bytes. -/
def send_profile_name_data (name : String) : List Nat :=
  let data := 3 :: encodeAsciiIgnore (name.data.take 18)
  if data.length < 19 then data ++ List.replicate (19 - data.length) 0 else data

/-- The Python format `f'{n:4.4}'` on a string: truncate to at most 4
characters, then left-align and pad on the right with spaces to width 4. -/
def fmt4 (s : String) : List Char :=
  let t := s.data.take 4
  t ++ List.replicate (4 - t.length) ' '

/-- The record built by `WindowsHal.send_key_names`: type byte 4, then the
labels reordered as `key_names[8:] + key_names[4:8] + key_names[:4]`, each
rendered as `f'{n:4.4}'` (or four spaces for `None`) and ASCII-encoded with
non-ASCII characters ignored. -/
def send_key_names_data (key_names : List (Option String)) : List Nat :=
  let reordered := key_names.drop 8 ++ (key_names.take 8).drop 4 ++ key_names.take 4
  4 :: (reordered.map (fun n =>
    match n with
    | some s => encodeAsciiIgnore (fmt4 s)
    | none => encodeAsciiIgnore "    ".data)).flatten

/-- The observable state of a Python `queue.Queue`: `maxsize` (0 means
infinite, as documented for `queue.Queue`) and the queued items. -/
structure PyQueue where
  maxsize : Int
  items : List (List Nat)
deriving DecidableEq, Repr

/-- `Queue.full`: true iff `0 < maxsize ≤ qsize()`. -/
def PyQueue.full (q : PyQueue) : Bool :=
  0 < q.maxsize && q.maxsize ≤ (q.items.length : Int)

/-- `Queue.put(item)` with default arguments (`block=True`, no timeout), as
called by `send_profile_name`/`send_key_names`: appends if the queue is not
full; `none` models the caller blocking (which with no timeout would be
forever). -/
def PyQueue.put (q : PyQueue) (m : List Nat) : Option PyQueue :=
  if q.full then none else some { q with items := q.items ++ [m] }

/-- `HalBase.__init__`: `self.msg_queue = Queue()` — no `maxsize` argument,
so `maxsize = 0`, i.e. an infinite queue. -/
def initial_msg_queue : PyQueue := { maxsize := 0, items := [] }

/-- `WindowsHal.send_profile_name`: encode, `assert len(data) == 19`, then
`put` on the message queue.  `.error` models the raised `AssertionError`
(nothing is enqueued), `.ok none` a blocked `put`, `.ok (some q')` the
successful enqueue. -/
def hal_send_profile_name (q : PyQueue) (name : String) :
    Except String (Option PyQueue) :=
  let data := send_profile_name_data name
  if data.length = 19 then .ok (q.put data)
  else .error "AssertionError"

/-- `WindowsHal.send_key_names`: reorder, `assert len(key_names) == 12`,
encode, `assert len(data) == (1 + 4*12)`, then `put` on the message queue.
Either assertion failing raises `AssertionError` before any enqueue
(modelled as `.error`). -/
def hal_send_key_names (q : PyQueue) (key_names : List (Option String)) :
    Except String (Option PyQueue) :=
  if (key_names.drop 8 ++ (key_names.take 8).drop 4 ++ key_names.take 4).length
      = 12 then
    let data := send_key_names_data key_names
    if data.length = 1 + 4 * 12 then .ok (q.put data)
    else .error "AssertionError"
  else .error "AssertionError"

/-! ## The router (`main.py`, class `Macropadd`) -/

/-- The mutable state of a `Macropadd` object. -/
structure PadState where
  active_layers : List Layer
  all_layers : List (String × Layer)
  last_encoder_rot : Option Int
  last_encoder_btn_state : Bool
deriving DecidableEq, Repr

/-- `Macropadd.__init__`. -/
def initState : PadState :=
  { active_layers := [], all_layers := [], last_encoder_rot := none
    last_encoder_btn_state := false }

/-- Observable router outputs: messages handed to the HAL and actions run. -/
inductive Out where
  | profile (name : Value)
  | keyNames (labels : List Value)
  | ranAction (a : PAction)
  | unhandledEvent
deriving DecidableEq, Repr

/-- `Macropadd.set_layers` (also the layer-file watcher's reload callback):
install the new table and rebuild the active stack as default plus the `base`
layer when one exists.  It sends nothing to the device. -/
def set_layers (s : PadState) (layers : List (String × Layer)) : PadState :=
  let new_active := [create_default_layer] ++
    (match alookup layers "base" with
     | some b => [b]
     | none => [])
  { s with all_layers := layers, active_layers := new_active }

/-- `Macropadd.handle_key_event`: search the copied stack in reverse (topmost
first) and run the first binding found; log unhandled otherwise. -/
def handle_key_event (s : PadState) (key : String) : List Out :=
  match s.active_layers.reverse.findSome? (fun l => l.run_action_for_key key) with
  | some a => [.ranAction a]
  | none => [.unhandledEvent]

/-- `Macropadd.handle_encoder_inc`. -/
def handle_encoder_inc (s : PadState) : List Out :=
  match s.active_layers.reverse.findSome? (fun l => l.encoder_inc_action) with
  | some a => [.ranAction a]
  | none => [.unhandledEvent]

/-- `Macropadd.handle_encoder_dec`. -/
def handle_encoder_dec (s : PadState) : List Out :=
  match s.active_layers.reverse.findSome? (fun l => l.encoder_dec_action) with
  | some a => [.ranAction a]
  | none => [.unhandledEvent]

/-- `Macropadd.handle_encoder_event`: on the first reading just store it;
afterwards compute `diff = (val - last) & 0xff`, reinterpret as a signed
8-bit value, and dispatch that many increment or decrement events (the
`while` loops). -/
def handle_encoder_event (s : PadState) (val : Int) : PadState × List Out :=
  match s.last_encoder_rot with
  | none => ({ s with last_encoder_rot := some val }, [])
  | some prev =>
    let diff0 := (val - prev) % 256
    let diff := if diff0 > 127 then diff0 - 256 else diff0
    let outs :=
      if diff > 0 then (List.replicate diff.toNat (handle_encoder_inc s)).flatten
      else (List.replicate (-diff).toNat (handle_encoder_dec s)).flatten
    ({ s with last_encoder_rot := some val }, outs)

/-- `Macropadd.handle_encoder_button`: edge-triggered dispatch — search the
stack only when `state and state != self.last_encoder_btn_state`; always
store the new state. -/
def handle_encoder_button (s : PadState) (state : Bool) : PadState × List Out :=
  let outs :=
    if state && state != s.last_encoder_btn_state then
      match s.active_layers.reverse.findSome? (fun l => l.encoder_btn_action) with
      | some a => [.ranAction a]
      | none => [.unhandledEvent]
    else []
  ({ s with last_encoder_btn_state := state }, outs)

/-- `os.path.basename` at the external boundary: the final path component —
the longest suffix containing no path separator. -/
def basename (path : String) : String :=
  String.mk ((path.data.reverse.takeWhile (fun c => !(c = '/' || c = '\\'))).reverse)

/-- Python `l.application == process`: true exactly when the layer's
`application` field holds that string. -/
def appMatches (l : Layer) (process : String) : Bool :=
  l.application == some (Value.str process)

/-- The label-overlay loop of `handle_process_change`:
`for i in range(len(key_names)): if lkn[i] is not None: key_names[i] = lkn[i]`
(both lists always have the fixed valid-key length, so the preceding
`assert len(lkn) == len(key_names)` holds). -/
def overlayNames (acc lkn : List Value) : List Value :=
  List.zipWith (fun a b => if b = Value.null then a else b) acc lkn

/-- The merged per-key labels sent after a focus change: start from the
bottom-most layer's labels, then overlay each higher layer's labels. -/
def merged_key_names : List Layer → List Value
  | [] => []
  | l0 :: rest => rest.foldl (fun acc l => overlayNames acc l.get_key_names) l0.get_key_names

/-- The popping phase of `handle_process_change`: when the table has a
`base` layer, `while len(new_active) > 0 and new_active[-1] != base_layer:
new_active.pop()`; when it has none, the stack is left as it is. -/
def stripToBase (s : PadState) : List Layer :=
  match alookup s.all_layers "base" with
  | some b => ((s.active_layers.reverse).dropWhile (fun l => l ≠ b)).reverse
  | none => s.active_layers

/-- The message-sending tail of `handle_process_change`: when the new stack
is non-empty (`if self.active_layers:`), the topmost layer's name is sent as
the profile name, followed by the merged key labels. -/
def profile_outs (layers : List Layer) : List Out :=
  match layers.getLast? with
  | some topmost =>
    [Out.profile topmost.name, Out.keyNames (merged_key_names layers)]
  | none => []

/-- `Macropadd.handle_process_change`: pop down to the base layer (only when
a `base` layer exists in the table), push the first table layer bound to the
process name, then — when the resulting stack is non-empty — send the topmost
layer's name as profile name and the merged key labels. -/
def handle_process_change (s : PadState) (path : String) : PadState × List Out :=
  let stripped := stripToBase s
  let process := basename path
  let new_active :=
    match (s.all_layers.map Prod.snd).find? (fun l => appMatches l process) with
    | some l => stripped ++ [l]
    | none => stripped
  ({ s with active_layers := new_active }, profile_outs new_active)

/-- The router's external inputs. -/
inductive Inp where
  | reload (table : List (String × Layer))
  | focus (path : String)
  | key (k : String)
  | encoderVal (v : Int)
  | encoderBtn (b : Bool)
deriving DecidableEq, Repr

/-- One router transition with its outputs. -/
def routerStep (s : PadState) : Inp → PadState × List Out
  | .reload t => (set_layers s t, [])
  | .focus p => handle_process_change s p
  | .key k => (s, handle_key_event s k)
  | .encoderVal v => handle_encoder_event s v
  | .encoderBtn b => handle_encoder_button s b

/-- Run a sequence of inputs from a state. -/
def runSteps (s : PadState) : List Inp → PadState
  | [] => s
  | i :: rest => runSteps (routerStep s i).1 rest

/-! ## Execution traces of actions (`BaseAction.run` and subclasses) -/

/-- Observable events of `Action.run`: `time.sleep(delay_ms / 1000)` is
recorded as `sleepMs delay_ms`; `keyboard.send`, `keyboard.write` and the
window-activation routine are leaf effects at the external boundary. -/
inductive Ev where
  | sleepMs (ms : Int)
  | press (hk : Value)
  | write (txt : Value)
  | activate (path : Value)
deriving DecidableEq, Repr

/-- The loop of `RepeatAction.run`: `for i in range(self.count): sleep; run`
(`range` of a non-positive count is empty, hence `Int.toNat` at the call
site). -/
def repRun (t : List Ev) (d : Int) : Nat → List Ev
  | 0 => []
  | n + 1 => (Ev.sleepMs d :: t) ++ repRun t d n

mutual

/-- The trace of `run()` for each action class of `action.py`. -/
def runTrace : PAction → List Ev
  | .hotkey hk _ => [.press hk]
  | .typeText txt _ => [.write txt]
  | .activateWindow p _ => [.activate p]
  | .rep inner _ count delayMs => repRun (runTrace inner) delayMs count.toNat
  | .seqn acts _ delayMs => seqRun acts delayMs

/-- The loop of `SequentialAction.run`: `for a in self.actions: sleep;
a.run()`. -/
def seqRun : List PAction → Int → List Ev
  | [], _ => []
  | a :: rest, d => (Ev.sleepMs d :: runTrace a) ++ seqRun rest d

end

/-! ## Derived runs used by the claims -/

/-- Feed a list of encoder-button state reports to the router in order,
recording for each report whether the handler attempted an action dispatch
(i.e. fired the bound action when one exists). -/
def buttonFires (s : PadState) : List Bool → List Bool
  | [] => []
  | b :: rest =>
    (!(handle_encoder_button s b).2.isEmpty) ::
      buttonFires (handle_encoder_button s b).1 rest

/-- `n` consecutive `send_profile_name` calls starting from a queue state
(a raised assertion or a blocked `put` — both impossible here — would leave
the queue unchanged). -/
def sendProfileNames (q : PyQueue) : Nat → PyQueue
  | 0 => q
  | n + 1 =>
    let q' := sendProfileNames q n
    match hal_send_profile_name q' "p" with
    | .ok (some q'') => q''
    | _ => q'

/-- The signed 8-bit wraparound delta the spec describes: `(new − previous)
mod 256`, with results 128..255 becoming negative. -/
def specDelta (prev new : Int) : Int :=
  let m := (new - prev) % 256
  if m ≥ 128 then m - 256 else m

/-- A layer is application-bound when its optional bound-application field is
set. -/
def isAppBound (l : Layer) : Bool :=
  l.application.isSome

/-- A layer table containing a `base` layer that is itself not
application-bound. -/
def hasUnboundBase (t : List (String × Layer)) : Bool :=
  match alookup t "base" with
  | some b => b.application == none
  | none => false

/-! ## Concrete fixtures used in examples and witnesses -/

/-- A concrete leaf action. -/
def hkX : PAction := .hotkey (.str "x") (.str "x")

/-- A layer with only an encoder-button binding. -/
def btnLayer : Layer := { name := .str "btn", encoder_btn_action := some hkX }

/-- A router state whose stack is just `btnLayer` ( `last_encoder_btn_state`
is `False` as after `__init__`). -/
def btnState : PadState := { initState with active_layers := [btnLayer] }

/-! # Helper lemmas -/

theorem repRun_eq_replicate (t : List Ev) (d : Int) :
    ∀ n : Nat, repRun t d n = (List.replicate n (Ev.sleepMs d :: t)).flatten := by
  intro n
  induction n with
  | zero => rfl
  | succ n ih => simp [repRun, List.replicate_succ, ih]

theorem button_step_state (s : PadState) (b : Bool) :
    (handle_encoder_button s b).1 = { s with last_encoder_btn_state := b } := rfl

theorem button_fired (s : PadState) (b : Bool) :
    (!(handle_encoder_button s b).2.isEmpty) = (b && !s.last_encoder_btn_state) := by
  simp only [handle_encoder_button]
  cases b <;> cases hl : s.last_encoder_btn_state <;> simp [hl] <;> split <;> simp

theorem handle_encoder_inc_length (s : PadState) :
    (handle_encoder_inc s).length = 1 := by
  unfold handle_encoder_inc
  split <;> rfl

theorem handle_encoder_dec_length (s : PadState) :
    (handle_encoder_dec s).length = 1 := by
  unfold handle_encoder_dec
  split <;> rfl

theorem flatten_replicate_length {α : Type} (x : List α) (hx : x.length = 1) :
    ∀ n : Nat, ((List.replicate n x).flatten).length = n := by
  intro n
  induction n with
  | zero => rfl
  | succ n ih => simp [List.replicate_succ, ih, hx]; omega

/-! # Claim C9 -/

/-- Claim C9 (confirmed): `Repeat(X, count, delay).run()` performs the cycle
(sleep `delay`, then run `X`) exactly `count` times — so `count = 0` never
invokes `X.run()`, `count = 3` with `delay = 0` invokes it exactly 3 times,
and the sleep comes before (not after) the first run — and
`Sequence([A,B,C], delay).run()` runs `A`, `B`, `C` in order exactly once
each, sleeping `delay` before each step including the first. -/
theorem c9_repeat_and_sequence (X A B C : PAction) (nm : Value)
    (count delayMs : Int) (hc : 0 ≤ count) (hd : 0 ≤ delayMs) :
    runTrace (.rep X nm count delayMs) =
      (List.replicate count.toNat (Ev.sleepMs delayMs :: runTrace X)).flatten ∧
    runTrace (.rep X nm 0 delayMs) = [] ∧
    runTrace (.rep X nm 3 0) =
      (Ev.sleepMs 0 :: runTrace X) ++ ((Ev.sleepMs 0 :: runTrace X) ++
        (Ev.sleepMs 0 :: runTrace X)) ∧
    runTrace (.seqn [A, B, C] nm delayMs) =
      (Ev.sleepMs delayMs :: runTrace A) ++ ((Ev.sleepMs delayMs :: runTrace B) ++
        (Ev.sleepMs delayMs :: runTrace C)) := by
  refine ⟨?_, ?_, ?_, ?_⟩
  · simp [runTrace, repRun_eq_replicate]
  · rfl
  · show repRun (runTrace X) 0 (Int.toNat 3) = _
    norm_num [repRun]
  · simp [runTrace, seqRun]

/-- Witness for C9 at a concrete repeat with `count = 3`, `delay = 0`. -/
theorem c9_repeat_and_sequence_witness :
    (0 : Int) ≤ 3 ∧ (0 : Int) ≤ 0 ∧
    runTrace (.rep (.typeText (.str "t") (.str "")) (.str "") 3 0) =
      (Ev.sleepMs 0 :: runTrace (.typeText (.str "t") (.str ""))) ++
        ((Ev.sleepMs 0 :: runTrace (.typeText (.str "t") (.str ""))) ++
          (Ev.sleepMs 0 :: runTrace (.typeText (.str "t") (.str "")))) :=
  ⟨by decide, by decide,
    (c9_repeat_and_sequence (.typeText (.str "t") (.str ""))
      (.typeText (.str "t") (.str "")) (.typeText (.str "t") (.str ""))
      (.typeText (.str "t") (.str "")) (.str "") 3 0
      (by decide) (by decide)).2.2.1⟩

/-! # Claim C6 -/

/-- Claim C6 (confirmed): the encoder-button dispatch is edge-triggered — for
every sequence of button-state reports, the handler attempts to fire the
bound action exactly on reports whose state is pressed while the previously
stored state was not pressed; two consecutive pressed reports fire only once,
and a release report never fires. -/
theorem c6_button_edge_triggered (s : PadState) (bs : List Bool) :
    buttonFires s bs =
      List.zipWith (fun cur stored => cur && !stored) bs
        (s.last_encoder_btn_state :: bs) ∧
    (handle_encoder_button s false).2 = [] ∧
    buttonFires btnState [true, true] = [true, false] ∧
    (handle_encoder_button btnState true).2 = [.ranAction hkX] ∧
    (handle_encoder_button (handle_encoder_button btnState true).1 true).2 = [] := by
  refine ⟨?_, ?_, ?_, ?_, ?_⟩
  · induction bs generalizing s with
    | nil => rfl
    | cons b rest ih =>
      show (!(handle_encoder_button s b).2.isEmpty) :: _ = _
      rw [button_fired, button_step_state]
      simpa using ih { s with last_encoder_btn_state := b }
  · simp [handle_encoder_button]
  · decide
  · decide
  · decide

/-! # Claim C5 -/

/-- Claim C5 (confirmed): for consecutive encoder counter readings, the router
computes the delta as `(new − previous) mod 256` reinterpreted as a signed
8-bit value, then dispatches exactly `delta` increments when positive and
exactly `−delta` decrements when negative, unclamped and in order; in
particular 250→10 yields 16 increments and 10→250 yields 16 decrements. -/
theorem c5_encoder_wraparound (s : PadState) (prev val : Int)
    (h1 : 0 ≤ prev) (h2 : prev ≤ 255) (h3 : 0 ≤ val) (h4 : val ≤ 255)
    (hlast : s.last_encoder_rot = some prev) :
    (handle_encoder_event s val).1.last_encoder_rot = some val ∧
    (0 < specDelta prev val →
      (handle_encoder_event s val).2 =
        (List.replicate (specDelta prev val).toNat (handle_encoder_inc s)).flatten ∧
      (handle_encoder_event s val).2.length = (specDelta prev val).toNat) ∧
    (specDelta prev val < 0 →
      (handle_encoder_event s val).2 =
        (List.replicate (-specDelta prev val).toNat (handle_encoder_dec s)).flatten ∧
      (handle_encoder_event s val).2.length = (-specDelta prev val).toNat) ∧
    (specDelta prev val = 0 → (handle_encoder_event s val).2 = []) ∧
    specDelta 250 10 = 16 ∧ specDelta 10 250 = -16 := by
  have hdiff :
      (if (val - prev) % 256 > 127 then (val - prev) % 256 - 256
       else (val - prev) % 256) = specDelta prev val := by
    simp only [specDelta]
    split <;> split <;> omega
  have hmain : handle_encoder_event s val =
      ({ s with last_encoder_rot := some val },
       if 0 < specDelta prev val then
         (List.replicate (specDelta prev val).toNat (handle_encoder_inc s)).flatten
       else
         (List.replicate (-specDelta prev val).toNat (handle_encoder_dec s)).flatten) := by
    simp only [handle_encoder_event, hlast, hdiff]
  refine ⟨by rw [hmain], ?_, ?_, ?_, by decide, by decide⟩
  · intro hpos
    rw [hmain]
    refine ⟨by simp [if_pos hpos], ?_⟩
    simp only [if_pos hpos]
    exact flatten_replicate_length _ (handle_encoder_inc_length s) _
  · intro hneg
    have hnp : ¬ 0 < specDelta prev val := by omega
    rw [hmain]
    refine ⟨by simp [if_neg hnp], ?_⟩
    simp only [if_neg hnp]
    exact flatten_replicate_length _ (handle_encoder_dec_length s) _
  · intro hzero
    rw [hmain]
    simp [hzero]

/-- Witness for C5 at the spec's own example `previous = 250`, `new = 10`:
16 increment dispatches. -/
theorem c5_encoder_wraparound_witness :
    ({ initState with last_encoder_rot := some 250 } :
        PadState).last_encoder_rot = some 250 ∧
    (0 : Int) ≤ 250 ∧ (250 : Int) ≤ 255 ∧ (0 : Int) ≤ 10 ∧ (10 : Int) ≤ 255 ∧
    (0 < specDelta 250 10 →
      (handle_encoder_event { initState with last_encoder_rot := some 250 } 10).2 =
        (List.replicate (specDelta 250 10).toNat
          (handle_encoder_inc { initState with last_encoder_rot := some 250 })).flatten ∧
      (handle_encoder_event { initState with last_encoder_rot := some 250 } 10).2.length =
        (specDelta 250 10).toNat) :=
  ⟨rfl, by decide, by decide, by decide, by decide,
    (c5_encoder_wraparound { initState with last_encoder_rot := some 250 } 250 10
      (by decide) (by decide) (by decide) (by decide) rfl).2.1⟩

/-! # Claim C10 -/

/-- One wire field of the key-label record, as the spec describes it: the
label formatted to width/precision 4 and ASCII-encoded, or four spaces
(byte 32) for an absent label. -/
def wireField : Option String → List Nat
  | some s => encodeAsciiIgnore (fmt4 s)
  | none => [32, 32, 32, 32]

theorem encodeAsciiIgnore_length_le (cs : List Char) :
    (encodeAsciiIgnore cs).length ≤ cs.length := by
  simp only [encodeAsciiIgnore, List.length_map]
  exact List.length_filter_le _ _

theorem encodeAsciiIgnore_ascii_length (cs : List Char)
    (h : ∀ c ∈ cs, c.toNat < 128) : (encodeAsciiIgnore cs).length = cs.length := by
  simp only [encodeAsciiIgnore, List.length_map]
  rw [List.filter_eq_self.mpr]
  intro c hc
  simpa using h c hc

theorem fmt4_length (s : String) : (fmt4 s).length = 4 := by
  have := List.length_take_le 4 s.data
  simp only [fmt4, List.length_append, List.length_replicate]
  omega

theorem wireField_ascii_length (n : Option String)
    (h : ∀ s, n = some s → ∀ c ∈ s.data, c.toNat < 128) :
    (wireField n).length = 4 := by
  cases n with
  | none => rfl
  | some s =>
    simp only [wireField]
    rw [encodeAsciiIgnore_ascii_length, fmt4_length]
    intro c hc
    simp only [fmt4, List.mem_append, List.mem_replicate] at hc
    rcases hc with hc | hc
    · exact h s rfl c (List.mem_of_mem_take hc)
    · rw [hc.2]; decide

theorem sum_map_const_four {α : Type} (xs : List α) (f : α → List Nat)
    (h : ∀ x ∈ xs, (f x).length = 4) : ((xs.map f).map List.length).sum = 4 * xs.length := by
  induction xs with
  | nil => rfl
  | cons x rest ih =>
    simp only [List.map_cons, List.sum_cons, h x (by simp),
      ih (fun y hy => h y (by simp [hy])), List.length_cons]
    ring

/-- `send_key_names` rendering, rephrased with `wireField` (the two per-label
renderings agree, since encoding four spaces gives four bytes 32). -/
theorem send_key_names_data_eq (ns : List (Option String)) :
    send_key_names_data ns =
      4 :: ((ns.drop 8 ++ (ns.take 8).drop 4 ++ ns.take 4).map wireField).flatten := by
  have hfun : ∀ x : Option String,
      (match x with
       | some s => encodeAsciiIgnore (fmt4 s)
       | none => encodeAsciiIgnore "    ".data) = wireField x := by
    intro x
    cases x with
    | none => decide
    | some s => rfl
  simp only [send_key_names_data]
  rw [funext hfun]

/-- The profile-name record is always exactly 19 bytes: encoding can only
shorten the (at most 18-character) name field, and padding fills it back up
to 19. -/
theorem send_profile_name_data_length (name : String) :
    (send_profile_name_data name).length = 19 := by
  have hle : (encodeAsciiIgnore (name.data.take 18)).length ≤ 18 :=
    le_trans (encodeAsciiIgnore_length_le _) (List.length_take_le _ _)
  simp only [send_profile_name_data]
  split
  · simp only [List.length_append, List.length_cons, List.length_replicate]
    omega
  · simp only [List.length_cons] at *
    omega

/-- A 12-element all-ASCII label list encodes to exactly `1 + 4*12` bytes. -/
theorem send_key_names_data_length_ascii (ns : List (Option String))
    (hlen : ns.length = 12)
    (hascii : ∀ s, some s ∈ ns → ∀ c ∈ s.data, c.toNat < 128) :
    (send_key_names_data ns).length = 1 + 4 * 12 := by
  have hfields : ∀ x ∈ ns.drop 8 ++ (ns.take 8).drop 4 ++ ns.take 4,
      (wireField x).length = 4 := by
    intro x hx
    refine wireField_ascii_length x (fun s hs c hc => ?_)
    subst hs
    rcases List.mem_append.mp hx with hx | hx
    · rcases List.mem_append.mp hx with hx | hx
      · exact hascii s (List.mem_of_mem_drop hx) c hc
      · exact hascii s (List.mem_of_mem_take (List.mem_of_mem_drop hx)) c hc
    · exact hascii s (List.mem_of_mem_take hx) c hc
  rw [send_key_names_data_eq]
  have hsum := sum_map_const_four _ wireField hfields
  have hdl : (ns.drop 8).length = 4 := by
    rw [List.length_drop, hlen]
  have htl : (ns.take 4).length = 4 := by
    rw [List.length_take, hlen]; omega
  have htdl : ((ns.take 8).drop 4).length = 4 := by
    rw [List.length_drop, List.length_take, hlen]; omega
  simp only [List.length_cons, List.length_join, hsum, List.length_append,
    hdl, htl, htdl]

/-- Counterexample to C10 as stated: with a non-ASCII label (`"é"`), the
format step pads to 4 characters but the subsequent ASCII encoding with
`errors='ignore'` drops the non-ASCII character, so the field is 3 bytes and
the record is 37 bytes instead of 49 — the internal assertion
`len(data) == 1 + 4*12` of `send_key_names` fails. -/
theorem c10_counterexample :
    (send_key_names_data (List.replicate 12 (some "é"))).length = 37 ∧
    ¬ ((send_key_names_data (List.replicate 12 (some "é"))).length = 1 + 4 * 12) := by
  refine ⟨by decide, by decide⟩

/-- Claim C10 (amended): `send_profile_name` always enqueues a record of
exactly 19 bytes starting with type byte 3 (its assertion holds for every
name, even non-ASCII ones, because dropped characters only shorten the name
field before padding); `send_key_names` reorders the 12 labels to wire order
(indices 8–11, then 4–7, then 0–3), renders absent labels as 4 spaces, and —
provided every label character is ASCII — produces a record of exactly
1 + 4·12 = 49 bytes starting with type byte 4, so its assertion holds for
ASCII labels (and only the ASCII restriction is needed, per the
counterexample). -/
theorem c10_record_formats :
    (∀ name : String, (send_profile_name_data name).length = 19 ∧
      (send_profile_name_data name).head? = some 3) ∧
    (∀ ns : List (Option String), ns.length = 12 →
      (∀ s, some s ∈ ns → ∀ c ∈ s.data, c.toNat < 128) →
      (send_key_names_data ns).length = 1 + 4 * 12 ∧
      (send_key_names_data ns).head? = some 4) ∧
    (∀ a b c d e f g h i j k l : Option String,
      send_key_names_data [a, b, c, d, e, f, g, h, i, j, k, l] =
        4 :: (wireField i ++ wireField j ++ wireField k ++ wireField l ++
              (wireField e ++ wireField f ++ wireField g ++ wireField h ++
               (wireField a ++ wireField b ++ wireField c ++ wireField d)))) := by
  refine ⟨?_, ?_, ?_⟩
  · intro name
    refine ⟨send_profile_name_data_length name, ?_⟩
    simp only [send_profile_name_data]
    split <;> simp
  · intro ns hlen hascii
    refine ⟨send_key_names_data_length_ascii ns hlen hascii, ?_⟩
    rw [send_key_names_data_eq]
    rfl
  · intro a b c d e f g h i j k l
    rw [send_key_names_data_eq]
    simp [wireField]

/-- Witness for C10 at a 12-element all-ASCII label list. -/
theorem c10_record_formats_witness :
    (List.replicate 12 (some "ab") : List (Option String)).length = 12 ∧
    (send_key_names_data (List.replicate 12 (some "ab"))).length = 1 + 4 * 12 ∧
    (send_key_names_data (List.replicate 12 (some "ab"))).head? = some 4 :=
  ⟨by decide,
    (c10_record_formats.2.1 (List.replicate 12 (some "ab")) (by decide)
      (fun s hs c hc => by
        have : some s = some "ab" := List.eq_of_mem_replicate hs
        obtain rfl : s = "ab" := by injection this
        revert hc
        revert c
        decide)).1,
    (c10_record_formats.2.1 (List.replicate 12 (some "ab")) (by decide)
      (fun s hs c hc => by
        have : some s = some "ab" := List.eq_of_mem_replicate hs
        obtain rfl : s = "ab" := by injection this
        revert hc
        revert c
        decide)).2⟩

/-! # Claim C2 -/

/-- When the queue has `maxsize = 0` it is never full. -/
theorem maxsize_zero_not_full (items : List (List Nat)) :
    PyQueue.full { maxsize := 0, items := items } = false := by
  simp [PyQueue.full]

/-- `put` on a queue with `maxsize = 0` always appends. -/
theorem put_of_maxsize_zero (q : PyQueue) (h : q.maxsize = 0) (m : List Nat) :
    q.put m = some { q with items := q.items ++ [m] } := by
  simp [PyQueue.put, PyQueue.full, h]

/-- `send_profile_name` on an unbounded queue: the assertion holds and the
record is appended. -/
theorem hal_send_profile_name_zero (q : PyQueue) (h : q.maxsize = 0)
    (name : String) :
    hal_send_profile_name q name =
      .ok (some { q with items := q.items ++ [send_profile_name_data name] }) := by
  simp only [hal_send_profile_name]
  rw [if_pos (send_profile_name_data_length name), put_of_maxsize_zero q h]

/-- The reordering slice of `send_key_names` preserves the list length, so
its first assertion is exactly a 12-label check. -/
theorem reorder_length (ns : List (Option String)) :
    (ns.drop 8 ++ (ns.take 8).drop 4 ++ ns.take 4).length = ns.length := by
  simp only [List.length_append, List.length_drop, List.length_take]
  omega

/-- `send_key_names` on an unbounded queue with both assertions passing:
the record is appended. -/
theorem hal_send_key_names_zero (q : PyQueue) (h : q.maxsize = 0)
    (ns : List (Option String)) (hlen : ns.length = 12)
    (hdata : (send_key_names_data ns).length = 1 + 4 * 12) :
    hal_send_key_names q ns =
      .ok (some { q with items := q.items ++ [send_key_names_data ns] }) := by
  simp only [hal_send_key_names]
  rw [if_pos (by rw [reorder_length, hlen]), if_pos hdata,
    put_of_maxsize_zero q h]

/-- The queue after `n` profile sends still has `maxsize = 0`. -/
theorem sendProfileNames_maxsize :
    ∀ n : Nat, (sendProfileNames initial_msg_queue n).maxsize = 0 := by
  intro n
  induction n with
  | zero => rfl
  | succ n ih =>
    simp only [sendProfileNames]
    rw [hal_send_profile_name_zero _ ih]
    simpa using ih

/-- Counterexample to C2 as stated: the outbound queue is created with
`Queue()` — unbounded (`maxsize = 0`) — and a seventh `send_profile_name`
after six queued messages appends a seventh record instead of dropping it,
so the queue is not bounded to a capacity of about 6. -/
theorem c2_counterexample :
    initial_msg_queue.maxsize = 0 ∧
    (sendProfileNames initial_msg_queue 6).items.length = 6 ∧
    hal_send_profile_name (sendProfileNames initial_msg_queue 6) "p" =
      .ok (some (sendProfileNames initial_msg_queue 7)) ∧
    (sendProfileNames initial_msg_queue 7).items.length = 7 ∧
    ¬ ((sendProfileNames initial_msg_queue 7).items.length ≤ 6) := by
  have h6 : (sendProfileNames initial_msg_queue 6).items.length = 6 := rfl
  have h7 : (sendProfileNames initial_msg_queue 7).items.length = 7 := rfl
  exact ⟨rfl, h6, rfl, h7, by omega⟩

/-- Claim C2 (amended): the outbound message queue shared by
`send_profile_name`/`send_key_names` is created unbounded (`Queue()`, i.e.
`maxsize = 0`), so it is never full and the queue itself never blocks a
sender or drops an update — `n` profile sends leave `n` records queued and
the queue can grow without bound.  `send_profile_name`'s internal length
assertion holds for every name, so it always enqueues immediately and never
raises; `send_key_names` enqueues immediately when its internal assertions
hold (a 12-label list whose encoded record is 49 bytes, e.g. all labels
ASCII), and raises `AssertionError` to the caller — enqueueing nothing —
when the label list is not 12 long or the encoded record is not 49 bytes. -/
theorem c2_queue_unbounded (items : List (List Nat)) (name : String)
    (ns : List (Option String)) :
    initial_msg_queue.maxsize = 0 ∧
    PyQueue.full { maxsize := 0, items := items } = false ∧
    hal_send_profile_name { maxsize := 0, items := items } name =
      .ok (some
        { maxsize := 0, items := items ++ [send_profile_name_data name] }) ∧
    (ns.length = 12 → (∀ s, some s ∈ ns → ∀ c ∈ s.data, c.toNat < 128) →
      hal_send_key_names { maxsize := 0, items := items } ns =
        .ok (some
          { maxsize := 0, items := items ++ [send_key_names_data ns] })) ∧
    (ns.length ≠ 12 →
      hal_send_key_names { maxsize := 0, items := items } ns =
        .error "AssertionError") ∧
    ((send_key_names_data ns).length ≠ 1 + 4 * 12 →
      hal_send_key_names { maxsize := 0, items := items } ns =
        .error "AssertionError") ∧
    (∀ n : Nat, (sendProfileNames initial_msg_queue n).items.length = n) := by
  refine ⟨rfl, maxsize_zero_not_full items, ?_, ?_, ?_, ?_, ?_⟩
  · exact hal_send_profile_name_zero _ rfl name
  · intro hlen hascii
    exact hal_send_key_names_zero _ rfl ns hlen
      (send_key_names_data_length_ascii ns hlen hascii)
  · intro hne
    simp only [hal_send_key_names]
    rw [if_neg (by rw [reorder_length]; exact hne)]
  · intro hne
    simp only [hal_send_key_names]
    by_cases h12 : (ns.drop 8 ++ (ns.take 8).drop 4 ++ ns.take 4).length = 12
    · rw [if_pos h12, if_neg hne]
    · rw [if_neg h12]
  · intro n
    induction n with
    | zero => rfl
    | succ n ih =>
      simp only [sendProfileNames]
      rw [hal_send_profile_name_zero _ (sendProfileNames_maxsize n)]
      simpa using ih

/-- Witness for C2: a 12-element all-ASCII label list enqueues, and three
profile sends leave three records queued. -/
theorem c2_queue_unbounded_witness :
    (List.replicate 12 (some "ab") : List (Option String)).length = 12 ∧
    hal_send_key_names { maxsize := 0, items := [] }
        (List.replicate 12 (some "ab")) =
      .ok (some
        { maxsize := 0,
          items := [] ++ [send_key_names_data (List.replicate 12 (some "ab"))] }) ∧
    (sendProfileNames initial_msg_queue 3).items.length = 3 :=
  ⟨by decide,
   (c2_queue_unbounded [] "p" (List.replicate 12 (some "ab"))).2.2.2.1 (by decide)
     (fun s hs c hc => by
       have : some s = some "ab" := List.eq_of_mem_replicate hs
       obtain rfl : s = "ab" := by injection this
       revert hc
       revert c
       decide),
   (c2_queue_unbounded [] "p" (List.replicate 12 (some "ab"))).2.2.2.2.2.2 3⟩

/-! # Claim C3 -/

/-- Whether a computation modelling Python raised. -/
def isErr {α : Type} : Except String α → Bool
  | .error _ => true
  | .ok _ => false

/-- The bindings `from_spec_dict` keeps, described as the (amended) claim
does: every valid-key field whose action parses to an actual action; fields
parsing to `None` (non-dict action specs) are omitted. -/
def keptBindings (spec : List (String × Value)) : List (String × PAction) :=
  spec.filterMap (fun kv =>
    if kv.1 ∈ VALID_KEY_NAMES then
      match parse_action kv.2 with
      | .ok (some a) => some (kv.1, a)
      | _ => none
    else none)

theorem buildKeyActions_ok (spec : List (String × Value))
    (h : ∀ kv ∈ spec, kv.1 ∈ VALID_KEY_NAMES → isErr (parse_action kv.2) = false) :
    buildKeyActions spec = .ok (keptBindings spec) := by
  induction spec with
  | nil => rfl
  | cons kv rest ih =>
    obtain ⟨k, v⟩ := kv
    have hrest := ih (fun kv hkv hvk => h kv (by simp [hkv]) hvk)
    by_cases hk : k ∈ VALID_KEY_NAMES
    · have hne := h (k, v) (by simp) hk
      simp only [buildKeyActions, if_pos hk, keptBindings, List.filterMap_cons]
      cases hp : parse_action v with
      | error e => rw [hp] at hne; simp [isErr] at hne
      | ok aOpt =>
        cases aOpt with
        | none => simpa [hp, hk, keptBindings] using hrest
        | some a => simp [hp, hk, keptBindings, hrest]
    · simpa [buildKeyActions, if_neg hk, keptBindings, List.filterMap_cons, hk]
        using hrest

theorem buildKeyActions_err (spec : List (String × Value)) (k : String) (v : Value)
    (hmem : (k, v) ∈ spec) (hk : k ∈ VALID_KEY_NAMES)
    (herr : isErr (parse_action v) = true) :
    isErr (buildKeyActions spec) = true := by
  induction spec with
  | nil => simp at hmem
  | cons kv rest ih =>
    obtain ⟨k0, v0⟩ := kv
    rcases List.mem_cons.mp hmem with hhead | htail
    · injection hhead with h1 h2
      subst h1
      subst h2
      simp only [buildKeyActions, if_pos hk]
      cases hp : parse_action v with
      | error e => simp [isErr]
      | ok aOpt => rw [hp] at herr; simp [isErr] at herr
    · by_cases hk0 : k0 ∈ VALID_KEY_NAMES
      · simp only [buildKeyActions, if_pos hk0]
        cases hp : parse_action v0 with
        | error e => simp [isErr]
        | ok aOpt =>
          cases aOpt with
          | none => exact ih htail
          | some a =>
            have := ih htail
            cases hb : buildKeyActions rest with
            | error e => simp [hb, isErr]
            | ok kas => rw [hb] at this; simp [isErr] at this
      · simp only [buildKeyActions, if_neg hk0]
        exact ih htail

/-- Counterexample to C3 as stated: a layer record with a `name` field and a
single key whose action field is a structured record matching no variant;
`parse_action` raises `ValueError` instead of returning `None`, the exception
escapes `from_spec_dict`, and construction of the layer fails as a whole. -/
theorem c3_counterexample :
    parse_action (.dict [("bogus", .int 1)]) = .error "ValueError: Invalid action" ∧
    alookup [("name", Value.str "L"), ("F13", Value.dict [("bogus", Value.int 1)])]
      "name" = some (.str "L") ∧
    from_spec_dict [("name", .str "L"), ("F13", .dict [("bogus", .int 1)])] =
      .error "ValueError: Invalid action" := by
  refine ⟨rfl, rfl, rfl⟩

/-- Claim C3 (amended): for a layer record with a `name` field,
`from_spec_dict` builds a Layer while skipping valid-key fields whose action
spec is not a structured record (those parse to `None`, are logged and
omitted, and all other parsed bindings are kept); but when any valid-key
action field is a structured record that fails to parse, `parse_action`
raises and construction of the Layer as a whole fails — the exception
escapes `from_spec_dict`. -/
theorem c3_layer_leniency (spec : List (String × Value)) (nm : Value)
    (hname : alookup spec "name" = some nm) :
    ((∀ kv ∈ spec, kv.1 ∈ VALID_KEY_NAMES → isErr (parse_action kv.2) = false) →
      from_spec_dict spec = .ok
        { name := nm, application := alookup spec "application",
          key_actions := keptBindings spec }) ∧
    (∀ k v, (k, v) ∈ spec → k ∈ VALID_KEY_NAMES → isErr (parse_action v) = true →
      isErr (from_spec_dict spec) = true) := by
  constructor
  · intro h
    simp [from_spec_dict, hname, buildKeyActions_ok spec h]
  · intro k v hmem hk herr
    have := buildKeyActions_err spec k v hmem hk herr
    simp only [from_spec_dict, hname]
    cases hb : buildKeyActions spec with
    | error e => simp [isErr]
    | ok kas => rw [hb] at this; simp [isErr] at this

/-- Witness for C3: a record whose `F13` action is a plain string (not a
structured record) still builds, with that binding omitted and the good
`F14` binding kept. -/
theorem c3_layer_leniency_witness :
    alookup [("name", Value.str "L"), ("F13", Value.str "oops"),
      ("F14", Value.dict [("hotkey", Value.str "k")])] "name" = some (.str "L") ∧
    from_spec_dict [("name", .str "L"), ("F13", .str "oops"),
        ("F14", .dict [("hotkey", .str "k")])] =
      .ok { name := .str "L", application := none,
            key_actions := keptBindings [("name", .str "L"), ("F13", .str "oops"),
              ("F14", .dict [("hotkey", .str "k")])] } :=
  ⟨rfl,
    (c3_layer_leniency [("name", .str "L"), ("F13", .str "oops"),
        ("F14", .dict [("hotkey", .str "k")])] (.str "L") rfl).1
      (by
        intro kv hkv hvk
        simp only [List.mem_cons, List.not_mem_nil, or_false] at hkv
        rcases hkv with rfl | rfl | rfl
        · exact absurd hvk (by decide)
        · rfl
        · rfl)⟩

/-! # Claim C4 -/

/-- A `base` layer with no bindings and no bound application. -/
def plainBase : Layer := { name := .str "base" }

/-- A table containing only the `base` layer. -/
def baseTable : List (String × Layer) := [("base", plainBase)]

/-- Counterexample to C4 as stated: a Reload (`set_layers`, which is also the
watcher's reload callback) emits nothing to the device even though the active
stack is non-empty. -/
theorem c4_counterexample :
    (runSteps initState [.reload baseTable]).active_layers ≠ [] ∧
    (routerStep (runSteps initState [.reload baseTable]) (.reload baseTable)).2 = [] := by
  have hact : (runSteps initState [.reload baseTable]).active_layers =
      [create_default_layer, plainBase] := rfl
  exact ⟨by rw [hact]; simp, rfl⟩

/-- Claim C4 (amended): after every FocusChanged transition with a non-empty
resulting stack the router emits exactly a profile-name update carrying the
topmost layer's name followed by a key-label update carrying the per-key
overlay of all active layers' labels, bottom-up with later layers winning per
key (e.g. `[A,B,null,null]` under `[null,X,null,null]` merges to
`[A,X,null,null]`); when the resulting stack is empty nothing is emitted; and
a Reload emits nothing at all. -/
theorem c4_profile_update (s : PadState) (path : String) (top : Layer)
    (htop : ((handle_process_change s path).1.active_layers).getLast? = some top) :
    (handle_process_change s path).2 =
      [Out.profile top.name,
       Out.keyNames (merged_key_names (handle_process_change s path).1.active_layers)] ∧
    (∀ s' t, (routerStep s' (.reload t)).2 = []) ∧
    (∀ s' path', ((handle_process_change s' path').1.active_layers).getLast? = none →
      (handle_process_change s' path').2 = []) ∧
    overlayNames [Value.str "A", Value.str "B", Value.null, Value.null]
      [Value.null, Value.str "X", Value.null, Value.null] =
      [Value.str "A", Value.str "X", Value.null, Value.null] := by
  refine ⟨?_, fun s' t => rfl, ?_, by decide⟩
  · show profile_outs ((handle_process_change s path).1.active_layers) = _
    simp [profile_outs, htop]
  · intro s' path' hempty
    show profile_outs ((handle_process_change s' path').1.active_layers) = _
    simp [profile_outs, hempty]

/-- Witness for C4: a focus change on a table holding only `base` leaves the
stack `[default, base]` and emits the `base` profile with merged labels. -/
theorem c4_profile_update_witness :
    ((handle_process_change (runSteps initState [.reload baseTable])
        "x/app.exe").1.active_layers).getLast? = some plainBase ∧
    (handle_process_change (runSteps initState [.reload baseTable])
        "x/app.exe").2 =
      [Out.profile plainBase.name,
       Out.keyNames (merged_key_names
         (handle_process_change (runSteps initState [.reload baseTable])
           "x/app.exe").1.active_layers)] :=
  ⟨rfl,
    (c4_profile_update (runSteps initState [.reload baseTable]) "x/app.exe"
      plainBase rfl).1⟩

/-! # Claim C7 -/

/-- A concrete action for the base layer of the precedence example. -/
def actBase : PAction := .hotkey (.str "base-act") (.str "B")

/-- A concrete action for the application layer of the precedence example. -/
def actApp : PAction := .hotkey (.str "app-act") (.str "X")

/-- A base layer binding key `K1`. -/
def baseK1 : Layer := { name := .str "base", key_actions := [("K1", actBase)] }

/-- An application layer also binding key `K1`. -/
def appK1 : Layer :=
  { name := .str "app", application := some (.str "app.exe"),
    key_actions := [("K1", actApp)] }

theorem findSome?_all_none {α β : Type} (f : α → Option β) :
    ∀ xs : List α, (∀ x ∈ xs, f x = none) → xs.findSome? f = none := by
  intro xs h
  induction xs with
  | nil => rfl
  | cons x rest ih =>
    rw [List.findSome?_cons, h x (by simp)]
    exact ih (fun y hy => h y (by simp [hy]))

theorem findSome?_append_first {α β : Type} (f : α → Option β) (xs ys : List α)
    (hxs : ∀ x ∈ xs, f x = none) :
    (xs ++ ys).findSome? f = ys.findSome? f := by
  induction xs with
  | nil => rfl
  | cons x rest ih =>
    rw [List.cons_append, List.findSome?_cons, hxs x (by simp)]
    exact ih (fun y hy => hxs y (by simp [hy]))

/-- The stack search: with all layers above `l` (`post`) not binding the
event and `l` binding it, the reversed-stack search returns `l`'s action. -/
theorem stack_search (f : Layer → Option PAction) (pre : List Layer) (l : Layer)
    (post : List Layer) (a : PAction)
    (hpost : ∀ l' ∈ post, f l' = none) (hl : f l = some a) :
    ((pre ++ l :: post).reverse.findSome? f) = some a := by
  rw [List.reverse_append, List.reverse_cons, List.append_assoc,
    List.singleton_append,
    findSome?_append_first f _ _ (fun x hx => hpost x (List.mem_reverse.mp hx)),
    List.findSome?_cons, hl]

theorem stack_search_none (f : Layer → Option PAction) (xs : List Layer)
    (h : ∀ l ∈ xs, f l = none) : xs.reverse.findSome? f = none :=
  findSome?_all_none f _ (fun x hx => h x (List.mem_reverse.mp hx))

/-- Claim C7 (confirmed): every input event (key, encoder increment, encoder
decrement, encoder button) is resolved by searching the active stack from the
most recently pushed layer downwards; the first layer that defines a binding
runs its action and the search stops, so a higher layer's binding always
shadows a lower one's, and when no active layer binds the event it is logged
as unhandled and no action runs.  In particular, with stack
`[default, baseK1, appK1]` where both `baseK1` and `appK1` bind `K1`,
`KeyEvent("K1")` runs `appK1`'s action. -/
theorem c7_top_down_precedence (s : PadState) (key : String) :
    (∀ pre l post a, s.active_layers = pre ++ l :: post →
      (∀ l' ∈ post, l'.run_action_for_key key = none) →
      l.run_action_for_key key = some a →
      handle_key_event s key = [.ranAction a]) ∧
    ((∀ l ∈ s.active_layers, l.run_action_for_key key = none) →
      handle_key_event s key = [.unhandledEvent]) ∧
    (∀ pre l post a, s.active_layers = pre ++ l :: post →
      (∀ l' ∈ post, l'.encoder_inc_action = none) →
      l.encoder_inc_action = some a →
      handle_encoder_inc s = [.ranAction a]) ∧
    ((∀ l ∈ s.active_layers, l.encoder_inc_action = none) →
      handle_encoder_inc s = [.unhandledEvent]) ∧
    (∀ pre l post a, s.active_layers = pre ++ l :: post →
      (∀ l' ∈ post, l'.encoder_dec_action = none) →
      l.encoder_dec_action = some a →
      handle_encoder_dec s = [.ranAction a]) ∧
    ((∀ l ∈ s.active_layers, l.encoder_dec_action = none) →
      handle_encoder_dec s = [.unhandledEvent]) ∧
    (∀ pre l post a, s.active_layers = pre ++ l :: post →
      s.last_encoder_btn_state = false →
      (∀ l' ∈ post, l'.encoder_btn_action = none) →
      l.encoder_btn_action = some a →
      (handle_encoder_button s true).2 = [.ranAction a]) ∧
    handle_key_event
      { initState with active_layers := [create_default_layer, baseK1, appK1] }
      "K1" = [.ranAction actApp] := by
  refine ⟨?_, ?_, ?_, ?_, ?_, ?_, ?_, rfl⟩
  · intro pre l post a hstack hpost hl
    have hsearch : s.active_layers.reverse.findSome?
        (fun l => l.run_action_for_key key) = some a := by
      rw [hstack]; exact stack_search _ pre l post a hpost hl
    unfold handle_key_event
    rw [hsearch]
  · intro hnone
    have hsearch : s.active_layers.reverse.findSome?
        (fun l => l.run_action_for_key key) = none :=
      stack_search_none _ _ hnone
    unfold handle_key_event
    rw [hsearch]
  · intro pre l post a hstack hpost hl
    have hsearch : s.active_layers.reverse.findSome?
        (fun l => l.encoder_inc_action) = some a := by
      rw [hstack]; exact stack_search _ pre l post a hpost hl
    unfold handle_encoder_inc
    rw [hsearch]
  · intro hnone
    have hsearch : s.active_layers.reverse.findSome?
        (fun l => l.encoder_inc_action) = none :=
      stack_search_none _ _ hnone
    unfold handle_encoder_inc
    rw [hsearch]
  · intro pre l post a hstack hpost hl
    have hsearch : s.active_layers.reverse.findSome?
        (fun l => l.encoder_dec_action) = some a := by
      rw [hstack]; exact stack_search _ pre l post a hpost hl
    unfold handle_encoder_dec
    rw [hsearch]
  · intro hnone
    have hsearch : s.active_layers.reverse.findSome?
        (fun l => l.encoder_dec_action) = none :=
      stack_search_none _ _ hnone
    unfold handle_encoder_dec
    rw [hsearch]
  · intro pre l post a hstack hbtn hpost hl
    have hsearch : s.active_layers.reverse.findSome?
        (fun l => l.encoder_btn_action) = some a := by
      rw [hstack]; exact stack_search _ pre l post a hpost hl
    simp only [handle_encoder_button, hbtn, hsearch]
    rfl

/-- Witness for C7: the shadowing part applied at the concrete stack
`[default, baseK1, appK1]`, and the unhandled part at a key nothing binds. -/
theorem c7_top_down_precedence_witness :
    handle_key_event
      { initState with active_layers := [create_default_layer, baseK1, appK1] }
      "K1" = [.ranAction actApp] ∧
    handle_key_event { initState with active_layers := [baseK1] } "KZ" =
      [.unhandledEvent] :=
  ⟨(c7_top_down_precedence
      { initState with active_layers := [create_default_layer, baseK1, appK1] }
      "K1").1 [create_default_layer, baseK1] appK1 [] actApp rfl
      (by simp) rfl,
   (c7_top_down_precedence { initState with active_layers := [baseK1] }
      "KZ").2.1 (by
        intro l hl
        have : l = baseK1 := by simpa using hl
        rw [this]
        rfl)⟩

/-! # Claim C1 -/

/-- An application-bound layer for `a.exe`. -/
def layA : Layer := { name := .str "A", application := some (.str "a.exe") }

/-- An application-bound layer for `b.exe`. -/
def layB : Layer := { name := .str "B", application := some (.str "b.exe") }

/-- A layer table with two application layers and no `base` layer. -/
def noBaseTable : List (String × Layer) := [("appA", layA), ("appB", layB)]

/-- The state reached by loading `noBaseTable` and focusing `a.exe` then
`b.exe`. -/
def noBaseRun : PadState :=
  runSteps initState [.reload noBaseTable, .focus "a.exe", .focus "b.exe"]

/-- The inductive invariant behind the amended C1: either the state is still
the pristine one (nothing loaded), or the current table has an unbound `base`
layer that sits in the active stack, and every non-topmost active layer is
unbound. -/
def C1Inv (s : PadState) : Prop :=
  (s.active_layers = [] ∧ s.all_layers = []) ∨
  (∃ b, alookup s.all_layers "base" = some b ∧ b.application = none ∧
    b ∈ s.active_layers ∧ ∀ l ∈ s.active_layers.dropLast, l.application = none)

theorem dropWhile_ne_of_mem (b : Layer) :
    ∀ xs : List Layer, b ∈ xs →
      ∃ zs ys, xs = zs ++ b :: ys ∧ xs.dropWhile (fun l => l ≠ b) = b :: ys := by
  intro xs hmem
  induction xs with
  | nil => simp at hmem
  | cons x rest ih =>
    by_cases hx : x = b
    · subst hx
      exact ⟨[], rest, rfl, by simp [List.dropWhile_cons]⟩
    · have hb : b ∈ rest := by
        rcases List.mem_cons.mp hmem with h | h
        · exact absurd h.symm hx
        · exact h
      obtain ⟨zs, ys, hxs, hdw⟩ := ih hb
      refine ⟨x :: zs, ys, by rw [List.cons_append, ← hxs], ?_⟩
      rw [List.dropWhile_cons]
      simp only [ne_eq, decide_not] at hdw ⊢
      simp [hx, hdw]

theorem stripToBase_eq (s : PadState) (b : Layer)
    (hb : alookup s.all_layers "base" = some b) (hmem : b ∈ s.active_layers) :
    ∃ ys zs : List Layer, s.active_layers = (ys.reverse ++ [b]) ++ zs.reverse ∧
      stripToBase s = ys.reverse ++ [b] := by
  have hmem' : b ∈ s.active_layers.reverse := List.mem_reverse.mpr hmem
  obtain ⟨zs, ys, hrev, hdw⟩ := dropWhile_ne_of_mem b _ hmem'
  refine ⟨ys, zs, ?_, ?_⟩
  · have : s.active_layers = (zs ++ b :: ys).reverse := by
      rw [← hrev, List.reverse_reverse]
    rw [this, List.reverse_append, List.reverse_cons]
  · simp only [stripToBase, hb, hdw, List.reverse_cons]

theorem c1inv_set_layers (s : PadState) (t : List (String × Layer))
    (ht : hasUnboundBase t = true) : C1Inv (set_layers s t) := by
  right
  simp only [hasUnboundBase] at ht
  cases hb : alookup t "base" with
  | none => rw [hb] at ht; simp at ht
  | some b =>
    rw [hb] at ht
    have hbapp : b.application = none := by simpa using ht
    have hact : (set_layers s t).active_layers = [create_default_layer, b] := by
      simp [set_layers, hb]
    have htab : (set_layers s t).all_layers = t := rfl
    refine ⟨b, by rw [htab]; exact hb, hbapp, by rw [hact]; simp, ?_⟩
    rw [hact]
    intro l hl
    have hdl : ([create_default_layer, b] : List Layer).dropLast =
        [create_default_layer] := rfl
    rw [hdl] at hl
    have : l = create_default_layer := by simpa using hl
    rw [this]
    rfl

theorem c1inv_focus (s : PadState) (path : String) (h : C1Inv s) :
    C1Inv (handle_process_change s path).1 := by
  have hall : (handle_process_change s path).1.all_layers = s.all_layers := rfl
  have hactive : (handle_process_change s path).1.active_layers =
      (match (s.all_layers.map Prod.snd).find?
          (fun l => appMatches l (basename path)) with
       | some l => stripToBase s ++ [l]
       | none => stripToBase s) := rfl
  rcases h with ⟨hact, htab⟩ | ⟨b, hb, hbapp, hmem, hdrop⟩
  · left
    have hstrip : stripToBase s = [] := by
      simp [stripToBase, htab, alookup, hact]
    constructor
    · rw [hactive, htab, hstrip]
      simp [alookup]
    · rw [hall]; exact htab
  · right
    obtain ⟨ys, zs, hactdec, hstrip⟩ := stripToBase_eq s b hb hmem
    have hys : ∀ l ∈ ys.reverse, l.application = none := by
      intro l hl
      apply hdrop
      rw [hactdec]
      cases zs with
      | nil =>
        simp only [List.reverse_nil, List.append_nil, List.dropLast_concat]
        exact hl
      | cons z zs' =>
        rw [List.dropLast_append_of_ne_nil _ (by simp)]
        exact List.mem_append_left _ (List.mem_append_left _ hl)
    have hstripall : ∀ l ∈ ys.reverse ++ [b], l.application = none := by
      intro l hl
      rcases List.mem_append.mp hl with hl | hl
      · exact hys l hl
      · rw [List.mem_singleton.mp hl]; exact hbapp
    refine ⟨b, by rw [hall]; exact hb, hbapp, ?_, ?_⟩
    · rw [hactive]
      cases hf : (s.all_layers.map Prod.snd).find?
          (fun l => appMatches l (basename path)) with
      | some m =>
        simp only [hstrip]
        exact List.mem_append_left _ (List.mem_append_right _ (by simp))
      | none =>
        simp only [hstrip]
        exact List.mem_append_right _ (by simp)
    · rw [hactive]
      cases hf : (s.all_layers.map Prod.snd).find?
          (fun l => appMatches l (basename path)) with
      | some m =>
        simp only [hstrip, List.dropLast_concat]
        exact hstripall
      | none =>
        simp only [hstrip, List.dropLast_concat]
        exact hys

theorem c1inv_step (s : PadState) (i : Inp)
    (hrel : ∀ t, i = Inp.reload t → hasUnboundBase t = true) (h : C1Inv s) :
    C1Inv (routerStep s i).1 := by
  cases i with
  | reload t => exact c1inv_set_layers s t (hrel t rfl)
  | focus p => exact c1inv_focus s p h
  | key k => exact h
  | encoderVal v =>
    show C1Inv (handle_encoder_event s v).1
    unfold handle_encoder_event
    cases hr : s.last_encoder_rot with
    | none => exact h
    | some prev => exact h
  | encoderBtn b => exact h

theorem c1inv_run (steps : List Inp) :
    ∀ s : PadState, C1Inv s →
      (∀ t, Inp.reload t ∈ steps → hasUnboundBase t = true) →
      C1Inv (runSteps s steps) := by
  induction steps with
  | nil => intro s h _; exact h
  | cons i rest ih =>
    intro s h hrel
    exact ih (routerStep s i).1
      (c1inv_step s i (fun t hit => hrel t (by rw [hit]; simp)) h)
      (fun t hit => hrel t (by simp [hit]))

/-- Counterexample to C1 as stated: with no `base` layer in the table,
`FocusChanged` never strips the stack, so after focusing `a.exe` and then
`b.exe` the stack is `[default, layA, layB]` — two application-bound layers
are active and one of them is not the topmost element. -/
theorem c1_counterexample :
    noBaseRun.active_layers.map Layer.application =
      [none, some (.str "a.exe"), some (.str "b.exe")] ∧
    layA ∈ noBaseRun.active_layers.dropLast ∧
    isAppBound layA = true ∧
    ¬ (∀ l ∈ noBaseRun.active_layers.dropLast, isAppBound l = false) := by
  have hdl : noBaseRun.active_layers.dropLast = [create_default_layer, layA] := rfl
  refine ⟨rfl, by rw [hdl]; simp, rfl, ?_⟩
  intro hall
  have := hall layA (by rw [hdl]; simp)
  simp [isAppBound, layA] at this

/-- Claim C1 (amended): provided every layer table ever loaded contains a
`base` layer that is itself not application-bound, every state reachable from
the initial one keeps all application-bound layers out of the non-top stack
positions — so at most one application-bound layer is active and, when
present, it is the topmost element.  Moreover every FocusChanged pushes at
most one layer on top of the stripped stack, and a pushed layer's bound
application equals the base filename of the process path; stripping to
`[default, base?]` happens only when a `base` layer exists in the table —
without one the stack is left unstripped (hence the counterexample). -/
theorem c1_stack_invariant (steps : List Inp)
    (hsteps : ∀ t, Inp.reload t ∈ steps → hasUnboundBase t = true) :
    (∀ l ∈ (runSteps initState steps).active_layers.dropLast,
      isAppBound l = false) ∧
    ((runSteps initState steps).active_layers.filter isAppBound).length ≤ 1 ∧
    (∀ s path, (handle_process_change s path).1.active_layers = stripToBase s ∨
      ∃ l, (handle_process_change s path).1.active_layers = stripToBase s ++ [l] ∧
        appMatches l (basename path) = true) ∧
    (∀ s : PadState, alookup s.all_layers "base" = none →
      stripToBase s = s.active_layers) := by
  have hinv : C1Inv (runSteps initState steps) :=
    c1inv_run steps initState (Or.inl ⟨rfl, rfl⟩) hsteps
  have hdrop : ∀ l ∈ (runSteps initState steps).active_layers.dropLast,
      isAppBound l = false := by
    intro l hl
    rcases hinv with ⟨hact, _⟩ | ⟨b, _, _, _, hd⟩
    · rw [hact] at hl; simp at hl
    · rw [isAppBound, hd l hl]; rfl
  refine ⟨hdrop, ?_, ?_, ?_⟩
  · by_cases hne : (runSteps initState steps).active_layers = []
    · rw [hne]; simp
    · have hsplit := List.dropLast_append_getLast hne
      have h1 : ((runSteps initState steps).active_layers.dropLast.filter
          isAppBound) = [] := by
        apply List.filter_eq_nil_iff.mpr
        intro a ha
        rw [hdrop a ha]
        simp
      calc ((runSteps initState steps).active_layers.filter isAppBound).length
          = (((runSteps initState steps).active_layers.dropLast ++
              [(runSteps initState steps).active_layers.getLast hne]).filter
                isAppBound).length := by rw [hsplit]
        _ ≤ 1 := by
            rw [List.filter_append, h1, List.nil_append]
            simpa using List.length_filter_le isAppBound
              [(runSteps initState steps).active_layers.getLast hne]
  · intro s path
    have hactive : (handle_process_change s path).1.active_layers =
        (match (s.all_layers.map Prod.snd).find?
            (fun l => appMatches l (basename path)) with
         | some l => stripToBase s ++ [l]
         | none => stripToBase s) := rfl
    cases hf : (s.all_layers.map Prod.snd).find?
        (fun l => appMatches l (basename path)) with
    | some m =>
      right
      refine ⟨m, by rw [hactive, hf], ?_⟩
      have hp := List.find?_some hf
      exact hp
    | none =>
      left
      rw [hactive, hf]
  · intro s hnone
    simp [stripToBase, hnone]

/-- Witness for C1: loading a table with an unbound `base` layer and one
application layer, then focusing `a.exe`, leaves only unbound layers below
the top. -/
theorem c1_stack_invariant_witness :
    (∀ l ∈ (runSteps initState
        [.reload [("base", plainBase), ("appA", layA)], .focus "a.exe"]
      ).active_layers.dropLast, isAppBound l = false) ∧
    ((runSteps initState
        [.reload [("base", plainBase), ("appA", layA)], .focus "a.exe"]
      ).active_layers.filter isAppBound).length ≤ 1 :=
  ⟨(c1_stack_invariant
      [.reload [("base", plainBase), ("appA", layA)], .focus "a.exe"]
      (by
        intro t ht
        simp only [List.mem_cons, List.not_mem_nil, or_false] at ht
        rcases ht with ht | ht
        · injection ht with h1; rw [h1]; rfl
        · exact absurd ht (by simp))).1,
   (c1_stack_invariant
      [.reload [("base", plainBase), ("appA", layA)], .focus "a.exe"]
      (by
        intro t ht
        simp only [List.mem_cons, List.not_mem_nil, or_false] at ht
        rcases ht with ht | ht
        · injection ht with h1; rw [h1]; rfl
        · exact absurd ht (by simp))).2.1⟩

/-! # Claim C8 -/

/-- Whether a value is a structured record (a dictionary). -/
def Value.isDict : Value → Bool
  | .dict _ => true
  | _ => false

/-- Spec-side condition: reading the optional integer sub-field `k` of `v`
(with default) and converting it with `int(...)` fails. -/
def specIntFail (v : Value) (k : String) (dflt : Value) : Bool :=
  match Value.dGet v k dflt with
  | .error _ => true
  | .ok x => isErr (pyInt x)

/-- Spec-side failure condition for `parse`, following the (amended) claim's
words: a dict record fails exactly when it matches no recognized variant
shape; or — for the first matching variant being `sequence`/`repeat` — a
required sub-field (`steps`/`action`) is missing or structurally malformed,
an inner or step action is not a structured record or recursively fails, or
an integer sub-field (`count`/`delayMs`) fails integer conversion.  Non-dict
records do not raise (parse returns `None` for them).  Fueled like `parseA`
with the same fuel, exhausting together. -/
def specFailA : Nat → Value → Bool
  | 0, _ => true
  | n + 1, v =>
    match v with
    | .dict es =>
      match alookup es "hotkey" with
      | some _ => false
      | none =>
      match alookup es "type" with
      | some _ => false
      | none =>
      match alookup es "activateWindow" with
      | some _ => false
      | none =>
        match alookup es "sequence" with
        | some sv =>
          match Value.item sv "steps" with
          | .error _ => true
          | .ok stepsVal =>
          match pyIter stepsVal with
          | .error _ => true
          | .ok steps =>
            steps.any (fun stp => !stp.isDict || specFailA n stp) ||
              specIntFail sv "delayMs" (.int 20)
        | none =>
          match alookup es "repeat" with
          | some rv =>
            match Value.item rv "action" with
            | .error _ => true
            | .ok av =>
              !av.isDict || specFailA n av ||
                specIntFail rv "count" (.int 0) ||
                specIntFail rv "delayMs" (.int 20)
          | none => true
    | _ => false

/-- Spec-side failure condition at the fuel `parse_action` uses. -/
def specFail (v : Value) : Bool :=
  specFailA (vsize v) v

/-- On a dict record, `parseA` either raises or returns an action — it never
returns `None`. -/
theorem parseA_dict_shape (n : Nat) (es : List (String × Value)) :
    isErr (parseA n (.dict es)) = true ∨
      ∃ a, parseA n (.dict es) = .ok (some a) := by
  cases n with
  | zero => left; rfl
  | succ n =>
    simp only [parseA]
    repeat' split
    all_goals first
      | (left; rfl)
      | (right; exact ⟨_, rfl⟩)

/-- A parse returning an action means the record was a dict. -/
theorem parseA_ok_some_isDict (n : Nat) (v : Value) (a : PAction)
    (hp : parseA n v = .ok (some a)) : v.isDict = true := by
  cases v <;> cases n <;> simp_all [parseA, Value.isDict]

/-- A parse returning `None` means the record was not a dict. -/
theorem parseA_ok_none_isDict (n : Nat) (v : Value) (hp : parseA n v = .ok none) :
    v.isDict = false := by
  cases v with
  | dict es =>
    rcases parseA_dict_shape n es with h | ⟨a, h⟩
    · rw [hp] at h; exact absurd h (by simp [isErr])
    · rw [hp] at h; exact Option.noConfusion (Except.ok.inj h)
  | str s => rfl
  | int m => rfl
  | bool b => rfl
  | null => rfl
  | list xs => rfl

/-- The step loop fails exactly when some step is not a dict or recursively
fails. -/
theorem stepsFail (n : Nat) (ih : ∀ v, isErr (parseA n v) = specFailA n v) :
    ∀ xs : List Value, isErr (parseStepsWith (parseA n) xs) =
      xs.any (fun stp => !stp.isDict || specFailA n stp) := by
  intro xs
  induction xs with
  | nil => rfl
  | cons v rest ihr =>
    simp only [parseStepsWith, List.any_cons]
    cases hp : parseA n v with
    | error e =>
      have h1 : specFailA n v = true := by rw [← ih v, hp]; rfl
      simp [isErr, h1]
    | ok aOpt =>
      cases aOpt with
      | none =>
        have hd := parseA_ok_none_isDict n v hp
        simp [isErr, hd]
      | some a =>
        have hd := parseA_ok_some_isDict n v a hp
        have h1 : specFailA n v = false := by rw [← ih v, hp]; rfl
        cases hrest : parseStepsWith (parseA n) rest with
        | error e =>
          have h2 : rest.any (fun stp => !stp.isDict || specFailA n stp) = true := by
            rw [← ihr, hrest]; rfl
          simp [isErr, hd, h1, h2]
        | ok acts =>
          have h2 : rest.any (fun stp => !stp.isDict || specFailA n stp) = false := by
            rw [← ihr, hrest]; rfl
          simp [isErr, hd, h1, h2]

/-- The central correspondence: `parseA` raises exactly when the spec-side
failure condition holds (at the same fuel). -/
theorem parse_fail_iff : ∀ n v, isErr (parseA n v) = specFailA n v := by
  intro n
  induction n with
  | zero => intro v; rfl
  | succ n ih =>
    intro v
    cases v with
    | str s => rfl
    | int m => rfl
    | bool b => rfl
    | null => rfl
    | list xs => rfl
    | dict es =>
      simp only [parseA, specFailA, hotkeyParse, typeParse, activateParse]
      cases hhk : alookup es "hotkey" with
      | some hv => simp [isErr]
      | none =>
      cases hty : alookup es "type" with
      | some tv => simp [isErr]
      | none =>
      cases hac : alookup es "activateWindow" with
      | some av => simp [isErr]
      | none =>
      cases hsq : alookup es "sequence" with
      | some sv =>
        cases hit : Value.item sv "steps" with
        | error e => simp [isErr, hit]
        | ok stepsVal =>
        cases hpi : pyIter stepsVal with
        | error e => simp [isErr, hit, hpi]
        | ok steps =>
        cases hps : parseStepsWith (parseA n) steps with
        | error e =>
          have h2 : steps.any (fun stp => !stp.isDict || specFailA n stp) = true := by
            rw [← stepsFail n ih steps, hps]; rfl
          simp [isErr, hit, hpi, hps, h2]
        | ok acts =>
          have h2 : steps.any (fun stp => !stp.isDict || specFailA n stp) = false := by
            rw [← stepsFail n ih steps, hps]; rfl
          cases hdv : Value.dGet sv "delayMs" (.int 20) with
          | error e => simp [isErr, specIntFail, hit, hpi, hps, h2, hdv]
          | ok dv =>
            cases hpd : pyInt dv with
            | error e => simp [isErr, specIntFail, hit, hpi, hps, h2, hdv, hpd]
            | ok d => simp [isErr, specIntFail, hit, hpi, hps, h2, hdv, hpd]
      | none =>
      cases hrp : alookup es "repeat" with
      | some rv =>
        cases hia : Value.item rv "action" with
        | error e => simp [isErr, hia]
        | ok av =>
        cases hpa : parseA n av with
        | error e =>
          have hsf : specFailA n av = true := by rw [← ih av, hpa]; rfl
          simp [isErr, hia, hpa, hsf]
        | ok aOpt =>
          cases aOpt with
          | none =>
            have hd := parseA_ok_none_isDict n av hpa
            simp [isErr, hia, hpa, hd]
          | some inner =>
            have hd := parseA_ok_some_isDict n av inner hpa
            have hsf : specFailA n av = false := by rw [← ih av, hpa]; rfl
            cases hcv : Value.dGet rv "count" (.int 0) with
            | error e => simp [isErr, specIntFail, hia, hpa, hd, hsf, hcv]
            | ok cv =>
            cases hpc : pyInt cv with
            | error e => simp [isErr, specIntFail, hia, hpa, hd, hsf, hcv, hpc]
            | ok c =>
            cases hdv : Value.dGet rv "delayMs" (.int 20) with
            | error e => simp [isErr, specIntFail, hia, hpa, hd, hsf, hcv, hpc, hdv]
            | ok dv =>
            cases hpd : pyInt dv with
            | error e =>
              simp [isErr, specIntFail, hia, hpa, hd, hsf, hcv, hpc, hdv, hpd]
            | ok d =>
              simp [isErr, specIntFail, hia, hpa, hd, hsf, hcv, hpc, hdv, hpd]
      | none => simp [isErr]

/-- A repeat record whose `count` field is a non-numeric string. -/
def badCountSpec : Value :=
  .dict [("repeat", .dict [("action", .dict [("hotkey", .str "h")]),
    ("count", .str "xyz")])]

/-- Counterexample to C8 as stated: `badCountSpec` matches the repeat variant
shape, its required `action` sub-field is present, and the recursive parse of
that inner action succeeds — none of the claim's three failure conditions
holds — yet `parse` fails, because `int('xyz')` raises during the `count`
conversion. -/
theorem c8_counterexample :
    parse_action badCountSpec = .error "ValueError: invalid literal for int" ∧
    hasKey [("repeat", Value.dict [("action", Value.dict [("hotkey", Value.str "h")]),
      ("count", Value.str "xyz")])] "repeat" = true ∧
    Value.item (.dict [("action", .dict [("hotkey", .str "h")]),
      ("count", .str "xyz")]) "action" = .ok (.dict [("hotkey", .str "h")]) ∧
    parse_action (.dict [("hotkey", .str "h")]) =
      .ok (some (.hotkey (.str "h") (.str ""))) := by
  exact ⟨rfl, rfl, rfl, rfl⟩

/-- Claim C8 (amended): `parse` recognizes the variants in the fixed order
hotkey → type-text → activate-program → sequence → repeat with the first
structural match winning (a record carrying both a `hotkey` and a `sequence`
field parses as a hotkey), and parse fails exactly when the record matches no
recognized variant shape, a required sub-field is missing or structurally
malformed, recursive parsing of a repeat's inner action or a sequence's step
action fails (a non-record inner/step counts as such a failure), or an
integer sub-field (`count`/`delayMs`) fails integer conversion — the last
case being the one the counterexample adds to the claim's list. -/
theorem c8_parse_order_and_failure (es : List (String × Value)) (hv tv av : Value) :
    (alookup es "hotkey" = some hv →
      parse_action (.dict es) = .ok (some (.hotkey hv (getName es)))) ∧
    (alookup es "hotkey" = none → alookup es "type" = some tv →
      parse_action (.dict es) = .ok (some (.typeText tv (getName es)))) ∧
    (alookup es "hotkey" = none → alookup es "type" = none →
      alookup es "activateWindow" = some av →
      parse_action (.dict es) = .ok (some (.activateWindow av (getName es)))) ∧
    parse_action (.dict [("hotkey", .str "h"),
        ("sequence", .dict [("steps", .list [])])]) =
      .ok (some (.hotkey (.str "h") (.str ""))) ∧
    (∀ spec : Value, isErr (parse_action spec) = specFail spec) := by
  refine ⟨?_, ?_, ?_, rfl, fun spec => parse_fail_iff (vsize spec) spec⟩
  · intro hk
    show parseA (fsize es + 1) (.dict es) = _
    simp [parseA, hotkeyParse, hk]
  · intro hk ht
    show parseA (fsize es + 1) (.dict es) = _
    simp [parseA, hotkeyParse, typeParse, hk, ht]
  · intro hk ht ha
    show parseA (fsize es + 1) (.dict es) = _
    simp [parseA, hotkeyParse, typeParse, activateParse, hk, ht, ha]

/-- Witness for C8: the hotkey variant wins at a concrete record. -/
theorem c8_parse_order_and_failure_witness :
    alookup [("hotkey", Value.str "h"), ("name", Value.str "N")] "hotkey" =
      some (.str "h") ∧
    parse_action (.dict [("hotkey", .str "h"), ("name", .str "N")]) =
      .ok (some (.hotkey (.str "h")
        (getName [("hotkey", Value.str "h"), ("name", Value.str "N")]))) :=
  ⟨rfl,
    (c8_parse_order_and_failure [("hotkey", .str "h"), ("name", .str "N")]
      (.str "h") .null .null).1 rfl⟩

end MPad

